import Mathlib

/-!
# Verification of the Delta Lake distributed batch-inference notebook

The repository's only source file is the notebook
`tutorials/delta_lake/2-distributed-batch-inference.ipynb`.  Its own logic
is a linear pipeline over lazy dataframe handles:

  read → limit → where (object length = 1) → into_partitions 16
       → with_column image_url / image / image_resized_small / image_resized_large
       → where (channels = 3) → ClassifyImage (lowres, highres)
       → select 5 columns → write_parquet.

The dataframe engine itself (limit / where / with_column / select /
into_partitions / write) is not under the sources given here, so those
operations are modelled from the spec's contracts; the batched transform
`ClassifyImage.__call__` is embedded from the notebook source, with the
external torch model abstracted as a per-image score function.
-/

namespace DaftNotebook

/-- Decoded image tensor; the notebook only inspects its shape
(`img.shape[2]`, the channel count) and its fixed resize targets, so the
embedding records the shape `height × width × channels`. -/
structure Image where
  height : Nat
  width : Nat
  channels : Nat
  deriving DecidableEq, Repr

/-- One element of the `object` column, which the source table types as
`List[Struct[bndbox: Struct[xmax, xmin, ymax, ymin], difficult, name, pose,
truncated]]` with every leaf a `Utf8` string. -/
structure ObjStruct where
  xmax : String
  xmin : String
  ymax : String
  ymin : String
  difficult : String
  objname : String
  pose : String
  truncated : String
  deriving DecidableEq, Repr

/-- Cell values of the untyped table embedding: strings (`Utf8`), lists of
bounding-box structs (the `object` column), decoded image tensors, and null. -/
inductive Value where
  | str : String → Value
  | vlist : List ObjStruct → Value
  | img : Image → Value
  | null : Value
  deriving DecidableEq, Repr

/-- Modelled from the spec: a table handle is a sequence of rows with a
named schema ("lazy, immutable reference to tabular data with a fixed
schema"); each row is the list of cell values aligned with the schema. -/
structure Table where
  schema : List String
  rows : List (List Value)
  deriving DecidableEq, Repr

/-- Index of a column name in a schema (first occurrence). -/
def colIdx (schema : List String) (name : String) : Nat :=
  schema.findIdx (fun c => c = name)

/-- The cell of row `r` at the column called `name`; null when absent. -/
def getCol (schema : List String) (name : String) (r : List Value) : Value :=
  r.getD (colIdx schema name) Value.null

/-- Modelled from the spec: `DataFrame.limit N` keeps the first `N` rows. -/
def Table.limit (t : Table) (n : Nat) : Table :=
  { schema := t.schema, rows := t.rows.take n }

/-- Modelled from the spec: `DataFrame.where` keeps the rows on which the
boolean row predicate holds. -/
def Table.filterRows (t : Table) (p : List Value → Bool) : Table :=
  { schema := t.schema, rows := t.rows.filter p }

/-- Length of the list held in a list-valued cell (0 otherwise). -/
def listLen (v : Value) : Nat :=
  match v with
  | Value.vlist l => l.length
  | _ => 0

/-- The notebook's row-pruning predicate: `df["object"].list.lengths() == 1`. -/
def objLenIsOne (schema : List String) (r : List Value) : Bool :=
  listLen (getCol schema "object" r) = 1

/-- Splits a list into `k` successive slices of `sz` elements each
(the last possibly shorter, trailing slices empty). -/
def splitSlices (k sz : Nat) (l : List α) : List (List α) :=
  match k with
  | 0 => []
  | k' + 1 => l.take sz :: splitSlices k' sz (l.drop sz)

/-- Ceiling division, the per-partition slice size used by fanout-slices. -/
def ceilDiv (n k : Nat) : Nat := (n + k - 1) / k

/-- Modelled from the spec: `DataFrame.into_partitions k` redistributes the
rows into `k` partitions ("a contiguous or hashed subset of rows processed
as one unit of parallel work"); the notebook's engine fans the rows out
into `k` contiguous slices. -/
def intoPartitions (k : Nat) (rows : List (List Value)) : List (List (List Value)) :=
  splitSlices k (ceilDiv rows.length k) rows

/-- Modelled from the spec: the table logically denoted by a partitioned
handle is the concatenation of its partitions ("a lazy table handle
logically equivalent"). -/
def Table.intoPartitionsJoined (t : Table) (k : Nat) : Table :=
  { schema := t.schema, rows := (intoPartitions k t.rows).flatten }

/-- Modelled from the spec: `DataFrame.with_column name f` derives one new
column row-wise; when the name already exists the column is replaced,
otherwise it is appended ("Output: a lazy table handle with one additional
column"). -/
def Table.withColumn (t : Table) (name : String) (f : List Value → Value) : Table :=
  if name ∈ t.schema then
    { schema := t.schema,
      rows := t.rows.map (fun r => r.set (colIdx t.schema name) (f r)) }
  else
    { schema := t.schema ++ [name],
      rows := t.rows.map (fun r => r ++ [f r]) }

/-- Modelled from the spec: a batched transform derives one new column from
a whole column of inputs at once ("invoked once per batch of rows,
producing one output value per input row"); each row is extended with the
output at its position. -/
def Table.withColumnBatch (t : Table) (name : String) (inCol : String)
    (f : List Value → List Value) : Table :=
  let outs := f (t.rows.map (getCol t.schema inCol))
  { schema := t.schema ++ [name],
    rows := (t.rows.zip outs).map (fun rv => rv.1 ++ [rv.2]) }

/-- Modelled from the spec: `DataFrame.select` projects onto the named
columns, in the order given. -/
def Table.select (t : Table) (names : List String) : Table :=
  { schema := names,
    rows := t.rows.map (fun r => names.map (fun n => getCol t.schema n r)) }

/-- Index of the first maximal element of a nonempty score list (the
behaviour of `argmax` over a row of class scores); 0 on the empty list. -/
def argmaxIdx : List Int → Nat
  | [] => 0
  | [_] => 0
  | x :: y :: ys =>
    let j := argmaxIdx (y :: ys)
    if (y :: ys).getD j 0 > x then j + 1 else 0

/-- The batched transform unit `ClassifyImage`: its `__init__` loads a
pretrained model and the weights' category list.  The external torch model
plus preprocessing plus softmax is abstracted as a per-image score
function `model`; the resnet50 weights contract (one score per category,
and a nonempty category list) is carried as proof fields. -/
structure ClassifyImage where
  category_map : List String
  model : Image → List Int
  score_len : ∀ img, (model img).length = category_map.length
  cat_pos : 0 < category_map.length

/-- The image payload of a cell (`__call__` casts the column to a
fixed-shape uint8 tensor before inference); non-image cells fall back to an
empty tensor. -/
def toImage (v : Value) : Image :=
  match v with
  | Value.img i => i
  | _ => ⟨0, 0, 0⟩

/-- `ClassifyImage.__call__` from the notebook: on an empty batch it
returns `[]`; otherwise it casts the series to fixed-shape tensors of the
given shape, scores every row with the model, takes each row's argmax
class id, and maps it through `category_map`. -/
def ClassifyImage.call (c : ClassifyImage) (images : List Value)
    (shape : List Nat) : List String :=
  if images.length = 0 then []
  else
    let _ := shape
    images.map (fun v => c.category_map.getD (argmaxIdx (c.model (toImage v))) "")

/-- The prefix of every derived image URL in the notebook. -/
def urlPrefix : String :=
  "s3://daft-public-datasets/imagenet/val-10k-sample-deltalake/images/"

/-- The notebook's `image_url` derivation:
`"s3://.../images/" + df["filename"] + ".jpeg"` (null when the filename
cell is not a string, as string concatenation propagates null). -/
def imageUrlExpr (schema : List String) (r : List Value) : Value :=
  match getCol schema "filename" r with
  | Value.str s => Value.str (urlPrefix ++ s ++ ".jpeg")
  | _ => Value.null

/-- `df["image"].image.resize(w, h)`: resizing targets a fixed width and
height and keeps the channel count; null propagates. -/
def resizeExpr (w h : Nat) (schema : List String) (r : List Value) : Value :=
  match getCol schema "image" r with
  | Value.img i => Value.img ⟨h, w, i.channels⟩
  | _ => Value.null

/-- The notebook's channel filter:
`df["image"].apply(lambda img: img.shape[2] == 3)`. -/
def channelIsThree (schema : List String) (r : List Value) : Bool :=
  (toImage (getCol schema "image" r)).channels = 3

/-- The projection list of the notebook's final `select`. -/
def selectedCols : List String :=
  ["filename", "image_url", "object", "predictions_lowres", "predictions_highres"]

/-- The notebook's pruning stage: `df.limit(NUM_ROWS)` followed by
`df.where(df["object"].list.lengths() == 1)`. -/
def pruned (src : Table) (numRows : Nat) : Table :=
  (src.limit numRows).filterRows (objLenIsOne (src.limit numRows).schema)

/-- The notebook's `df.into_partitions(16)`, viewed as the logical table it
denotes. -/
def fanout (src : Table) (numRows : Nat) : Table :=
  (pruned src numRows).intoPartitionsJoined 16

/-- The notebook's preprocessing chain: derive `image_url`, fetch and
decode `image` (external, abstracted as `decode` applied to the url cell),
and the two fixed-target resizes. -/
def preprocessed (src : Table) (numRows : Nat) (decode : Value → Value) : Table :=
  let t3 := fanout src numRows
  let t4 := t3.withColumn "image_url" (imageUrlExpr t3.schema)
  let t5 := t4.withColumn "image" (fun r => decode (getCol t4.schema "image_url" r))
  let t6 := t5.withColumn "image_resized_small" (resizeExpr 32 32 t5.schema)
  t6.withColumn "image_resized_large" (resizeExpr 256 256 t6.schema)

/-- The table reaching the inference stages: the preprocessed table with
the rows whose decoded image does not have exactly 3 channels removed. -/
def channelFiltered (src : Table) (numRows : Nat) (decode : Value → Value) : Table :=
  (preprocessed src numRows decode).filterRows
    (channelIsThree (preprocessed src numRows decode).schema)

/-- The two batched inference stages, sharing one `ClassifyImage` unit `c`
("construct once per worker"): `predictions_lowres` over the 32×32×3
column and `predictions_highres` over the 256×256×3 column. -/
def inferred (src : Table) (numRows : Nat) (decode : Value → Value)
    (c : ClassifyImage) : Table :=
  let t8 := channelFiltered src numRows decode
  let t9 := t8.withColumnBatch "predictions_lowres" "image_resized_small"
    (fun images => (c.call images [32, 32, 3]).map Value.str)
  t9.withColumnBatch "predictions_highres" "image_resized_large"
    (fun images => (c.call images [256, 256, 3]).map Value.str)

/-- The notebook's pipeline from the source table to the written table.
`write_parquet` followed by `read_parquet` is modelled from the spec as the
identity on the logical table (the written files, re-read, hold exactly
the written rows). -/
def runPipeline (src : Table) (numRows : Nat) (decode : Value → Value)
    (c : ClassifyImage) : Table :=
  (inferred src numRows decode c).select selectedCols

/-- The stub image decode for the end-to-end check: every url decodes to a
constant 4×4×3 tensor. -/
def stubDecode : Value → Value := fun _ => Value.img ⟨4, 4, 3⟩

/-! ## General lemmas about the table operations -/

/-- The slice size covers the whole list: `n ≤ k * ceilDiv n k` for `k > 0`. -/
lemma le_mul_ceilDiv (n k : Nat) (hk : 0 < k) : n ≤ k * ceilDiv n k := by
  unfold ceilDiv
  have h : k * ((n + k - 1) / k) + (n + k - 1) % k = n + k - 1 :=
    Nat.div_add_mod _ _
  have hr : (n + k - 1) % k < k := Nat.mod_lt _ hk
  set m := k * ((n + k - 1) / k) with hm
  omega

/-- Concatenating the `k` slices of size `sz` recovers the original list
whenever the slices cover it. -/
lemma flatten_splitSlices {α : Type _} (k sz : Nat) (l : List α)
    (h : l.length ≤ k * sz) : (splitSlices k sz l).flatten = l := by
  induction k generalizing l with
  | zero =>
    have : l = [] := List.eq_nil_of_length_eq_zero (by omega)
    simp [splitSlices, this]
  | succ k ih =>
    have hd : (l.drop sz).length ≤ k * sz := by
      simp only [List.length_drop]
      have : (k + 1) * sz = k * sz + sz := by ring
      omega
    simp [splitSlices, List.flatten_cons, ih (l.drop sz) hd]

/-- Fanning rows out into `k ≥ 1` partitions and concatenating them back
is the identity on the row list. -/
lemma intoPartitions_flatten (k : Nat) (rows : List (List Value))
    (hk : 1 ≤ k) : (intoPartitions k rows).flatten = rows :=
  flatten_splitSlices k _ rows (le_mul_ceilDiv rows.length k hk)

/-- The row-wise argmax index is in bounds on a nonempty score list. -/
lemma argmaxIdx_lt_length (x : Int) (xs : List Int) :
    argmaxIdx (x :: xs) < (x :: xs).length := by
  induction xs generalizing x with
  | nil => simp [argmaxIdx]
  | cons y ys ih =>
    simp only [argmaxIdx, List.length_cons]
    split
    · exact Nat.succ_lt_succ (ih y)
    · exact Nat.succ_pos _

/-- `getD` at an in-bounds index is a member of the list. -/
lemma getD_mem_of_lt {α : Type _} (l : List α) (i : Nat) (d : α)
    (h : i < l.length) : l.getD i d ∈ l := by
  rw [List.getD_eq_getElem l d h]
  exact List.getElem_mem h

/-- The argmax index is in bounds on any score list of positive length. -/
lemma argmaxIdx_lt_of_pos (l : List Int) (h : 0 < l.length) :
    argmaxIdx l < l.length := by
  cases l with
  | nil => simp at h
  | cons x xs => exact argmaxIdx_lt_length x xs

/-- A stub batched transform unit: one category `"cat"`, a model scoring
every image with the single score list `[0]`. -/
def stubClassifier : ClassifyImage where
  category_map := ["cat"]
  model := fun _ => [0]
  score_len := fun _ => rfl
  cat_pos := by decide

/-- A three-row table with filenames `a`, `b`, `c`, each paired with a
singleton `object` list. -/
def tbl3 : Table where
  schema := ["filename", "object"]
  rows :=
    [[Value.str "a", Value.vlist [⟨"1", "0", "1", "0", "0", "n0", "u", "0"⟩]],
     [Value.str "b", Value.vlist [⟨"1", "0", "1", "0", "0", "n1", "u", "0"⟩]],
     [Value.str "c", Value.vlist [⟨"1", "0", "1", "0", "0", "n2", "u", "0"⟩]]]

/-- Structure of every row that reaches the inference stages: it extends a
two-cell source row `[a, b]` that survived the object-length filter with
the derived url, the decoded image, and the two resized tensors, and its
decoded image has exactly 3 channels. -/
lemma mem_channelFiltered (rows : List (List Value)) (numRows : Nat)
    (decode : Value → Value)
    (halign : ∀ r ∈ rows, r.length = 2)
    (hdec : ∀ v, ∃ i, decode v = Value.img i) :
    ∀ r ∈ (channelFiltered ⟨["filename", "object"], rows⟩ numRows decode).rows,
      ∃ a b i, [a, b] ∈ rows ∧ listLen b = 1 ∧ i.channels = 3 ∧
        decode (imageUrlExpr ["filename", "object"] [a, b]) = Value.img i ∧
        r = [a, b, imageUrlExpr ["filename", "object"] [a, b], Value.img i,
             Value.img ⟨32, 32, i.channels⟩, Value.img ⟨256, 256, i.channels⟩] := by
  intro r hr
  simp [channelFiltered, preprocessed, fanout, pruned, Table.limit,
    Table.filterRows, Table.intoPartitionsJoined, Table.withColumn,
    intoPartitions_flatten, List.mem_filter, List.mem_map] at hr
  obtain ⟨⟨r0, ⟨htake, hobj⟩, hreq⟩, hchan⟩ := hr
  have hmem : r0 ∈ rows := List.take_subset _ _ htake
  obtain ⟨a, b, rfl⟩ := List.length_eq_two.mp (halign r0 hmem)
  obtain ⟨im, him⟩ := hdec (imageUrlExpr ["filename", "object"] [a, b])
  subst hreq
  have hf0 : List.findIdx (fun c => decide (c = "object"))
      ["filename", "object"] = 1 := rfl
  have hf1 : List.findIdx (fun c => decide (c = "image_url"))
      ["filename", "object", "image_url"] = 2 := rfl
  have hf2 : List.findIdx (fun c => decide (c = "image"))
      ["filename", "object", "image_url", "image"] = 3 := rfl
  have hf3 : List.findIdx (fun c => decide (c = "image"))
      ["filename", "object", "image_url", "image", "image_resized_small"] = 3 := rfl
  have hf4 : List.findIdx (fun c => decide (c = "image"))
      ["filename", "object", "image_url", "image", "image_resized_small",
        "image_resized_large"] = 3 := rfl
  refine ⟨a, b, im, hmem, ?_, ?_, him, ?_⟩
  · simpa [objLenIsOne, getCol, colIdx, hf0] using hobj
  · simpa [channelIsThree, getCol, colIdx, toImage, hf1, hf2, hf3, hf4, him,
      resizeExpr] using hchan
  · simp [resizeExpr, getCol, colIdx, hf1, hf2, hf3, him]

/-- The schema of the table reaching the inference stages. -/
lemma channelFiltered_schema (rows : List (List Value)) (numRows : Nat)
    (decode : Value → Value) :
    (channelFiltered ⟨["filename", "object"], rows⟩ numRows decode).schema
      = ["filename", "object", "image_url", "image", "image_resized_small",
         "image_resized_large"] := rfl

/-- Structure of every row after the two batched inference stages: the
six derived cells of `mem_channelFiltered` followed by the two prediction
cells. -/
lemma mem_inferred (rows : List (List Value)) (numRows : Nat)
    (decode : Value → Value) (c : ClassifyImage)
    (halign : ∀ r ∈ rows, r.length = 2)
    (hdec : ∀ v, ∃ i, decode v = Value.img i) :
    ∀ r ∈ (inferred ⟨["filename", "object"], rows⟩ numRows decode c).rows,
      ∃ a b i v1 v2, [a, b] ∈ rows ∧ listLen b = 1 ∧ i.channels = 3 ∧
        decode (imageUrlExpr ["filename", "object"] [a, b]) = Value.img i ∧
        r = [a, b, imageUrlExpr ["filename", "object"] [a, b], Value.img i,
             Value.img ⟨32, 32, i.channels⟩, Value.img ⟨256, 256, i.channels⟩,
             v1, v2] := by
  intro r hr
  simp only [inferred, Table.withColumnBatch, List.mem_map] at hr
  obtain ⟨⟨x, v2⟩, hp, hpr⟩ := hr
  have hx := (List.of_mem_zip hp).1
  rw [List.mem_map] at hx
  obtain ⟨⟨y, v1⟩, hq, hqeq⟩ := hx
  have hy := (List.of_mem_zip hq).1
  obtain ⟨a, b, i, hab, hb1, hch, hdecu, hyeq⟩ :=
    mem_channelFiltered rows numRows decode halign hdec y hy
  refine ⟨a, b, i, v1, v2, hab, hb1, hch, hdecu, ?_⟩
  rw [← hpr, ← hqeq, hyeq]
  simp

/-- Structure of every row of the written table: the projected five cells
`filename, image_url, object, predictions_lowres, predictions_highres`
of a row that survived both filters. -/
lemma mem_runPipeline (rows : List (List Value)) (numRows : Nat)
    (decode : Value → Value) (c : ClassifyImage)
    (halign : ∀ r ∈ rows, r.length = 2)
    (hdec : ∀ v, ∃ i, decode v = Value.img i) :
    ∀ r ∈ (runPipeline ⟨["filename", "object"], rows⟩ numRows decode c).rows,
      ∃ a b i v1 v2, [a, b] ∈ rows ∧ listLen b = 1 ∧ i.channels = 3 ∧
        decode (imageUrlExpr ["filename", "object"] [a, b]) = Value.img i ∧
        r = [a, imageUrlExpr ["filename", "object"] [a, b], b, v1, v2] := by
  intro r hr
  simp only [runPipeline, Table.select, List.mem_map] at hr
  obtain ⟨r0, hr0, hreq⟩ := hr
  have hsch : (inferred ⟨["filename", "object"], rows⟩ numRows decode c).schema
      = ["filename", "object", "image_url", "image", "image_resized_small",
         "image_resized_large", "predictions_lowres", "predictions_highres"] := rfl
  rw [hsch] at hreq
  obtain ⟨a, b, i, v1, v2, hab, hb1, hch, hdecu, hr0eq⟩ :=
    mem_inferred rows numRows decode c halign hdec r0 hr0
  subst hr0eq
  have hg0 : List.findIdx (fun c => decide (c = "filename"))
      ["filename", "object", "image_url", "image", "image_resized_small",
       "image_resized_large", "predictions_lowres", "predictions_highres"] = 0 := rfl
  have hg1 : List.findIdx (fun c => decide (c = "object"))
      ["filename", "object", "image_url", "image", "image_resized_small",
       "image_resized_large", "predictions_lowres", "predictions_highres"] = 1 := rfl
  have hg2 : List.findIdx (fun c => decide (c = "image_url"))
      ["filename", "object", "image_url", "image", "image_resized_small",
       "image_resized_large", "predictions_lowres", "predictions_highres"] = 2 := rfl
  have hg6 : List.findIdx (fun c => decide (c = "predictions_lowres"))
      ["filename", "object", "image_url", "image", "image_resized_small",
       "image_resized_large", "predictions_lowres", "predictions_highres"] = 6 := rfl
  have hg7 : List.findIdx (fun c => decide (c = "predictions_highres"))
      ["filename", "object", "image_url", "image", "image_resized_small",
       "image_resized_large", "predictions_lowres", "predictions_highres"] = 7 := rfl
  refine ⟨a, b, i, v1, v2, hab, hb1, hch, hdecu, ?_⟩
  rw [← hreq]
  simp [selectedCols, getCol, colIdx, hg0, hg1, hg2, hg6, hg7]

/-! ## Claim theorems -/

/-- C4: for every table and every non-negative `N`, limiting the table to
`N` rows and then counting rows yields `min(N, original row count)`. -/
theorem limit_count (t : Table) (n : Nat) :
    ((t.limit n).rows).length = min n t.rows.length := by
  simp [Table.limit]

/-- C5: for every table and list-valued column, the filter keeping rows
whose list at that column has length 1 is idempotent: filtering twice
yields the same table as filtering once. -/
theorem where_len_one_idempotent (t : Table) (col : String) :
    (t.filterRows (fun r => listLen (getCol t.schema col r) = 1)).filterRows
        (fun r => listLen (getCol t.schema col r) = 1)
      = t.filterRows (fun r => listLen (getCol t.schema col r) = 1) := by
  simp [Table.filterRows, List.filter_filter]

/-- C6: repartitioning a table into `k ≥ 1` partitions preserves the total
row count and the multiset of row contents. -/
theorem intoPartitions_preserves_rows (t : Table) (k : Nat) (hk : 1 ≤ k) :
    (t.intoPartitionsJoined k).rows.length = t.rows.length ∧
      Multiset.ofList (t.intoPartitionsJoined k).rows
        = Multiset.ofList t.rows := by
  have h := intoPartitions_flatten k t.rows hk
  constructor <;> simp [Table.intoPartitionsJoined, h]

/-- Witness for C6 at the concrete three-row table and `k = 2`. -/
theorem intoPartitions_preserves_rows_witness :
    (tbl3.intoPartitionsJoined 2).rows.length = tbl3.rows.length ∧
      Multiset.ofList (tbl3.intoPartitionsJoined 2).rows
        = Multiset.ofList tbl3.rows :=
  intoPartitions_preserves_rows tbl3 2 (by decide)

/-- C2: on the empty batch (zero input rows) the batched transform
`ClassifyImage.__call__` returns the empty result, for every transform
unit and every shape argument. -/
theorem classify_call_empty (c : ClassifyImage) (shape : List Nat) :
    c.call [] shape = [] := rfl

/-- C1: on a batch of `m ≥ 1` fixed-shape tensors, the batched transform
`ClassifyImage.__call__` returns exactly `m` labels, each drawn from the
transform's category map. -/
theorem classify_call_length_mem (c : ClassifyImage) (images : List Value)
    (shape : List Nat) (m : Nat) (hm : images.length = m) (h1 : 1 ≤ m) :
    (c.call images shape).length = m ∧
      ∀ label ∈ c.call images shape, label ∈ c.category_map := by
  have hne : ¬ images.length = 0 := by omega
  have hm0 : ¬ m = 0 := by omega
  constructor
  · simp [ClassifyImage.call, hne, hm, hm0]
  · intro label hmem
    simp only [ClassifyImage.call, if_neg hne, List.mem_map] at hmem
    obtain ⟨v, _, hv⟩ := hmem
    have hscore : 0 < (c.model (toImage v)).length := by
      rw [c.score_len]; exact c.cat_pos
    have hidx : argmaxIdx (c.model (toImage v)) < c.category_map.length := by
      have := argmaxIdx_lt_of_pos (c.model (toImage v)) hscore
      rwa [c.score_len] at this
    rw [← hv]
    exact getD_mem_of_lt _ _ _ hidx

/-- C7: the written table has exactly the projected schema `filename`,
`image_url`, `object`, `predictions_lowres`, `predictions_highres`, in
that order, and no other columns — for every source table, limit, decode
function and transform unit. -/
theorem written_schema (src : Table) (numRows : Nat)
    (decode : Value → Value) (c : ClassifyImage) :
    (runPipeline src numRows decode c).schema
      = ["filename", "image_url", "object",
         "predictions_lowres", "predictions_highres"] := rfl

/-- C3: end to end, on the three-row table with filenames `a`, `b`, `c`,
the stub decode returning a constant 4×4×3 tensor and the stub classifier
that always answers `"cat"`, the written-and-re-read output has exactly 3
rows, each with `predictions_lowres = predictions_highres = "cat"`. -/
theorem pipeline_end_to_end :
    (runPipeline tbl3 1000 stubDecode stubClassifier).rows.length = 3 ∧
      ∀ r ∈ (runPipeline tbl3 1000 stubDecode stubClassifier).rows,
        getCol (runPipeline tbl3 1000 stubDecode stubClassifier).schema
            "predictions_lowres" r = Value.str "cat" ∧
          getCol (runPipeline tbl3 1000 stubDecode stubClassifier).schema
            "predictions_highres" r = Value.str "cat" := by
  decide

/-- C8: in every row of the pipeline's intermediate table (the table the
inference stages read, after the channel filter), `image_resized_small`
holds a fixed-shape 32×32×3 tensor and `image_resized_large` a fixed-shape
256×256×3 tensor. -/
theorem resized_tensor_shapes (src : Table) (numRows : Nat)
    (decode : Value → Value)
    (hschema : src.schema = ["filename", "object"])
    (halign : ∀ r ∈ src.rows, r.length = src.schema.length)
    (hdec : ∀ v, ∃ i, decode v = Value.img i) :
    ∀ r ∈ (channelFiltered src numRows decode).rows,
      getCol (channelFiltered src numRows decode).schema
          "image_resized_small" r = Value.img ⟨32, 32, 3⟩ ∧
        getCol (channelFiltered src numRows decode).schema
          "image_resized_large" r = Value.img ⟨256, 256, 3⟩ := by
  obtain ⟨sch, rows⟩ := src
  simp only at hschema halign
  subst hschema
  intro r hr
  obtain ⟨a, b, i, hab, hb1, hch, hdecu, hreq⟩ :=
    mem_channelFiltered rows numRows decode (by simpa using halign) hdec r hr
  subst hreq
  rw [channelFiltered_schema]
  have hs4 : List.findIdx (fun c => decide (c = "image_resized_small"))
      ["filename", "object", "image_url", "image", "image_resized_small",
       "image_resized_large"] = 4 := rfl
  have hs5 : List.findIdx (fun c => decide (c = "image_resized_large"))
      ["filename", "object", "image_url", "image", "image_resized_small",
       "image_resized_large"] = 5 := rfl
  constructor
  · simp [getCol, colIdx, hs4, hch]
  · simp [getCol, colIdx, hs5, hch]

/-- Witness for C8: the first row reaching inference in the three-row
table with the stub decode. -/
theorem resized_tensor_shapes_witness :
    getCol (channelFiltered tbl3 1000 stubDecode).schema "image_resized_small"
        [Value.str "a", Value.vlist [⟨"1", "0", "1", "0", "0", "n0", "u", "0"⟩],
         Value.str (urlPrefix ++ "a" ++ ".jpeg"), Value.img ⟨4, 4, 3⟩,
         Value.img ⟨32, 32, 3⟩, Value.img ⟨256, 256, 3⟩] = Value.img ⟨32, 32, 3⟩ ∧
      getCol (channelFiltered tbl3 1000 stubDecode).schema "image_resized_large"
        [Value.str "a", Value.vlist [⟨"1", "0", "1", "0", "0", "n0", "u", "0"⟩],
         Value.str (urlPrefix ++ "a" ++ ".jpeg"), Value.img ⟨4, 4, 3⟩,
         Value.img ⟨32, 32, 3⟩, Value.img ⟨256, 256, 3⟩] = Value.img ⟨256, 256, 3⟩ :=
  resized_tensor_shapes tbl3 1000 stubDecode rfl (by decide)
    (fun _ => ⟨⟨4, 4, 3⟩, rfl⟩)
    [Value.str "a", Value.vlist [⟨"1", "0", "1", "0", "0", "n0", "u", "0"⟩],
     Value.str (urlPrefix ++ "a" ++ ".jpeg"), Value.img ⟨4, 4, 3⟩,
     Value.img ⟨32, 32, 3⟩, Value.img ⟨256, 256, 3⟩] (by decide)

/-- C9: in every row of the written table, `image_url` is the string
concatenation of the dataset url prefix, the row's `filename`, and
`".jpeg"`. -/
theorem image_url_concatenation (src : Table) (numRows : Nat)
    (decode : Value → Value) (c : ClassifyImage)
    (hschema : src.schema = ["filename", "object"])
    (halign : ∀ r ∈ src.rows, r.length = src.schema.length)
    (hdec : ∀ v, ∃ i, decode v = Value.img i)
    (hfn : ∀ r ∈ src.rows, ∃ s, getCol src.schema "filename" r = Value.str s) :
    ∀ r ∈ (runPipeline src numRows decode c).rows,
      ∃ s, getCol (runPipeline src numRows decode c).schema "filename" r
          = Value.str s ∧
        getCol (runPipeline src numRows decode c).schema "image_url" r
          = Value.str (urlPrefix ++ s ++ ".jpeg") := by
  obtain ⟨sch, rows⟩ := src
  simp only at hschema halign hfn
  subst hschema
  intro r hr
  obtain ⟨a, b, i, v1, v2, hab, hb1, hch, hdecu, hreq⟩ :=
    mem_runPipeline rows numRows decode c (by simpa using halign) hdec r hr
  obtain ⟨s, hs⟩ := hfn [a, b] hab
  have hfi : List.findIdx (fun c => decide (c = "filename"))
      ["filename", "object"] = 0 := rfl
  simp only [getCol, colIdx, hfi, List.getD_cons_zero] at hs
  subst hreq
  have hsel0 : List.findIdx (fun c => decide (c = "filename"))
      selectedCols = 0 := rfl
  have hsel1 : List.findIdx (fun c => decide (c = "image_url"))
      selectedCols = 1 := rfl
  have hsch : (runPipeline ⟨["filename", "object"], rows⟩ numRows decode c).schema
      = selectedCols := rfl
  rw [hsch]
  refine ⟨s, ?_, ?_⟩
  · simp [getCol, colIdx, hsel0, hs]
  · simp [getCol, colIdx, hsel1, imageUrlExpr, hfi, hs]

/-- Witness for C9: the first written row of the three-row table with the
stub decode and the stub classifier. -/
theorem image_url_concatenation_witness :
    ∃ s, getCol (runPipeline tbl3 1000 stubDecode stubClassifier).schema
        "filename"
        [Value.str "a", Value.str (urlPrefix ++ "a" ++ ".jpeg"),
         Value.vlist [⟨"1", "0", "1", "0", "0", "n0", "u", "0"⟩],
         Value.str "cat", Value.str "cat"] = Value.str s ∧
      getCol (runPipeline tbl3 1000 stubDecode stubClassifier).schema
        "image_url"
        [Value.str "a", Value.str (urlPrefix ++ "a" ++ ".jpeg"),
         Value.vlist [⟨"1", "0", "1", "0", "0", "n0", "u", "0"⟩],
         Value.str "cat", Value.str "cat"]
        = Value.str (urlPrefix ++ s ++ ".jpeg") :=
  image_url_concatenation tbl3 1000 stubDecode stubClassifier rfl (by decide)
    (fun _ => ⟨⟨4, 4, 3⟩, rfl⟩)
    (by
      intro r hr
      simp [tbl3] at hr
      rcases hr with rfl | rfl | rfl <;> exact ⟨_, rfl⟩)
    [Value.str "a", Value.str (urlPrefix ++ "a" ++ ".jpeg"),
     Value.vlist [⟨"1", "0", "1", "0", "0", "n0", "u", "0"⟩],
     Value.str "cat", Value.str "cat"] (by decide)

/-- C10: before either inference stage runs, every row whose decoded image
does not have exactly 3 channels has been removed: every tensor passed to
either `ClassifyImage` stage has channel dimension 3, every row still
present after inference has a 3-channel `image` and a length-1 `object`
list, and every row of the written output has a length-1 `object` list. -/
theorem channel_filter_invariant (src : Table) (numRows : Nat)
    (decode : Value → Value) (c : ClassifyImage)
    (hschema : src.schema = ["filename", "object"])
    (halign : ∀ r ∈ src.rows, r.length = src.schema.length)
    (hdec : ∀ v, ∃ i, decode v = Value.img i) :
    (∀ v ∈ (channelFiltered src numRows decode).rows.map
        (getCol (channelFiltered src numRows decode).schema "image_resized_small"),
        (toImage v).channels = 3) ∧
      (∀ v ∈ (channelFiltered src numRows decode).rows.map
        (getCol (channelFiltered src numRows decode).schema "image_resized_large"),
        (toImage v).channels = 3) ∧
      (∀ r ∈ (inferred src numRows decode c).rows,
        (toImage (getCol (inferred src numRows decode c).schema "image" r)).channels = 3 ∧
          listLen (getCol (inferred src numRows decode c).schema "object" r) = 1) ∧
      (∀ r ∈ (runPipeline src numRows decode c).rows,
        listLen (getCol (runPipeline src numRows decode c).schema "object" r) = 1) := by
  obtain ⟨sch, rows⟩ := src
  simp only at hschema halign
  subst hschema
  have halign2 : ∀ r ∈ rows, r.length = 2 := by simpa using halign
  have hs4 : List.findIdx (fun c => decide (c = "image_resized_small"))
      ["filename", "object", "image_url", "image", "image_resized_small",
       "image_resized_large"] = 4 := rfl
  have hs5 : List.findIdx (fun c => decide (c = "image_resized_large"))
      ["filename", "object", "image_url", "image", "image_resized_small",
       "image_resized_large"] = 5 := rfl
  have hi3 : List.findIdx (fun c => decide (c = "image"))
      ["filename", "object", "image_url", "image", "image_resized_small",
       "image_resized_large", "predictions_lowres", "predictions_highres"] = 3 := rfl
  have hi1 : List.findIdx (fun c => decide (c = "object"))
      ["filename", "object", "image_url", "image", "image_resized_small",
       "image_resized_large", "predictions_lowres", "predictions_highres"] = 1 := rfl
  have hobj2 : List.findIdx (fun c => decide (c = "object")) selectedCols = 2 := rfl
  refine ⟨?_, ?_, ?_, ?_⟩
  · intro v hv
    rw [List.mem_map] at hv
    obtain ⟨r, hr, hveq⟩ := hv
    obtain ⟨a, b, i, hab, hb1, hch, hdecu, hreq⟩ :=
      mem_channelFiltered rows numRows decode halign2 hdec r hr
    subst hreq
    rw [← hveq, channelFiltered_schema]
    simp [getCol, colIdx, hs4, toImage, hch]
  · intro v hv
    rw [List.mem_map] at hv
    obtain ⟨r, hr, hveq⟩ := hv
    obtain ⟨a, b, i, hab, hb1, hch, hdecu, hreq⟩ :=
      mem_channelFiltered rows numRows decode halign2 hdec r hr
    subst hreq
    rw [← hveq, channelFiltered_schema]
    simp [getCol, colIdx, hs5, toImage, hch]
  · intro r hr
    obtain ⟨a, b, i, v1, v2, hab, hb1, hch, hdecu, hreq⟩ :=
      mem_inferred rows numRows decode c halign2 hdec r hr
    subst hreq
    have hsch : (inferred ⟨["filename", "object"], rows⟩ numRows decode c).schema
        = ["filename", "object", "image_url", "image", "image_resized_small",
           "image_resized_large", "predictions_lowres", "predictions_highres"] := rfl
    rw [hsch]
    constructor
    · simp [getCol, colIdx, hi3, toImage, hch]
    · simp [getCol, colIdx, hi1, hb1]
  · intro r hr
    obtain ⟨a, b, i, v1, v2, hab, hb1, hch, hdecu, hreq⟩ :=
      mem_runPipeline rows numRows decode c halign2 hdec r hr
    subst hreq
    have hsch : (runPipeline ⟨["filename", "object"], rows⟩ numRows decode c).schema
        = selectedCols := rfl
    rw [hsch]
    simp [getCol, colIdx, hobj2, hb1]

/-- Witness for C10: the three-row table with the stub decode and the stub
classifier. -/
theorem channel_filter_invariant_witness :
    (∀ v ∈ (channelFiltered tbl3 1000 stubDecode).rows.map
        (getCol (channelFiltered tbl3 1000 stubDecode).schema "image_resized_small"),
        (toImage v).channels = 3) ∧
      (∀ v ∈ (channelFiltered tbl3 1000 stubDecode).rows.map
        (getCol (channelFiltered tbl3 1000 stubDecode).schema "image_resized_large"),
        (toImage v).channels = 3) ∧
      (∀ r ∈ (inferred tbl3 1000 stubDecode stubClassifier).rows,
        (toImage (getCol (inferred tbl3 1000 stubDecode stubClassifier).schema
          "image" r)).channels = 3 ∧
          listLen (getCol (inferred tbl3 1000 stubDecode stubClassifier).schema
            "object" r) = 1) ∧
      (∀ r ∈ (runPipeline tbl3 1000 stubDecode stubClassifier).rows,
        listLen (getCol (runPipeline tbl3 1000 stubDecode stubClassifier).schema
          "object" r) = 1) :=
  channel_filter_invariant tbl3 1000 stubDecode stubClassifier rfl (by decide)
    (fun _ => ⟨⟨4, 4, 3⟩, rfl⟩)

/-- Witness for C1: the stub classifier on a singleton batch. -/
theorem classify_call_length_mem_witness :
    (stubClassifier.call [Value.img ⟨32, 32, 3⟩] [32, 32, 3]).length = 1 ∧
      ∀ label ∈ stubClassifier.call [Value.img ⟨32, 32, 3⟩] [32, 32, 3],
        label ∈ stubClassifier.category_map :=
  classify_call_length_mem stubClassifier [Value.img ⟨32, 32, 3⟩]
    [32, 32, 3] 1 rfl (by decide)

end DaftNotebook
